import Mathlib

/-
Shallow embedding of the live duplex-voice subsystem of Lumina-AI
(src/src/App.tsx, lines 215-334, plus connectLive in
src/src/services/geminiService.ts).

The live-voice logic keeps its state in React refs and boolean flags:
`liveSessionRef`, `audioContextRef`, `currentAudioSourceRef`,
`isLiveActive`, `isLuminaSpeaking`, `isLuminaThinking`, plus the console
log.  The handlers (`onmessage`, `source.onended`, `onopen`,
`processor.onaudioprocess`) and the lifecycle routines (`startLiveVoice`,
`stopLiveVoice`) are translated below as functions on an explicit state
record.  Each event handler runs to completion on the single-threaded
event loop, so a handler invocation is one atomic step here.
-/

set_option autoImplicit false

namespace LuminaLive

/-! ### Frame encoder (`processor.onaudioprocess`, App.tsx lines 318-328)

Capture samples are floating-point numbers; they are embedded as
rationals.  `pcmData[i] = Math.max(-1, Math.min(1, inputData[i])) * 0x7FFF`
clamps and scales, and assignment into an `Int16Array` truncates toward
zero and wraps modulo 2^16.  The `Int16Array` buffer is viewed as
little-endian bytes and fed through `btoa` (base64). -/

/-- Clamp of one input sample, from `Math.max(-1, Math.min(1, x))`. -/
def clamp (x : ℚ) : ℚ := max (-1) (min 1 x)

/-- Truncation toward zero used by JavaScript when a number is stored
into an `Int16Array` (step `truncate` of ToInt16). -/
def jsTrunc (q : ℚ) : ℤ := if 0 ≤ q then ⌊q⌋ else -⌊-q⌋

/-- One encoded sample: clamp to [-1,1], scale by 0x7FFF = 32767,
truncate toward zero. -/
def pcmSample (x : ℚ) : ℤ := jsTrunc (clamp x * 32767)

/-- Wrap of a signed value into an unsigned 16-bit representative, the
two-sComplement view an `Int16Array` stores. -/
def toUint16 (n : ℤ) : ℕ := (n % 65536).toNat

/-- The two little-endian bytes one sample occupies in the
`Int16Array` buffer read back through `Uint8Array`. -/
def sampleBytes (x : ℚ) : List ℕ :=
  [toUint16 (pcmSample x) % 256, toUint16 (pcmSample x) / 256]

/-- Raw byte view of the whole frame, in sample order. -/
def frameBytes (xs : List ℚ) : List ℕ := (xs.map sampleBytes).flatten

/-- The base64 alphabet used by `btoa`. -/
def base64Alphabet : List Char :=
  "ABCDEFGHIJKLMNOPQRSTUVWXYZabcdefghijklmnopqrstuvwxyz0123456789+/".toList

/-- Character for one 6-bit group. -/
def b64char (n : ℕ) : Char := base64Alphabet.getD n '='

/-- Base64 encoding of a byte list, as `btoa` produces it: groups of
three bytes become four characters, a trailing group of one or two
bytes is padded with `=`. -/
def b64encode : List ℕ → List Char
  | [] => []
  | [a] => [b64char (a / 4), b64char (a % 4 * 16), '=', '=']
  | [a, b] => [b64char (a / 4), b64char (a % 4 * 16 + b / 16), b64char (b % 16 * 4), '=']
  | a :: b :: c :: rest =>
    b64char (a / 4) :: b64char (a % 4 * 16 + b / 16) ::
      b64char (b % 16 * 4 + c / 64) :: b64char (c % 64) :: b64encode rest

/-- Full encoding of one capture tick: samples to PCM bytes to base64. -/
def encodeTick (xs : List ℚ) : List Char := b64encode (frameBytes xs)

/-- Outbound message shape sent by `session.sendRealtimeInput`. -/
structure OutMsg where
  data : List Char
  mimeType : String
deriving DecidableEq

/-- The `processor.onaudioprocess` handler: encodes the tick's input
buffer and sends exactly one message. -/
def onaudioprocess (xs : List ℚ) : OutMsg :=
  { data := encodeTick xs, mimeType := "audio/pcm;rate=24000" }

/-- Success predicate of `atob`: length a multiple of four, every
character in the alphabet except for at most two trailing `=` pads.
(`atob` throws on any other input; the decoded bytes themselves are
not needed by the model, only whether decoding succeeds.) -/
def atobOk (s : List Char) : Bool :=
  (s.length % 4 == 0) &&
    (let core := s.takeWhile (fun c => base64Alphabet.contains c)
     let pad := s.drop core.length
     pad.all (fun c => c == '=') && decide (pad.length ≤ 2))

/-! ### Controller state -/

/-- One `AudioBufferSourceNode` created for a model audio chunk.  It is
started right after creation (`source.start()`); `stopped` records that
it no longer plays, either because `stop()` was called on it or because
it reached the end of its buffer. -/
structure Handle where
  id : ℕ
  stopped : Bool
deriving DecidableEq

/-- The transport session object returned by `connectLive`
(`ai.live.connect`).  Its interface guarantees `close` is idempotent. -/
structure Session where
  closed : Bool
deriving DecidableEq

/-- Idempotent transport close, per the session interface. -/
def Session.close (s : Session) : Session := { s with closed := true }

/-- The `AudioContext`; `closed` mirrors `state === 'closed'`. -/
structure AudioCtx where
  closed : Bool
deriving DecidableEq

/-- Console output entries (`console.error` / `console.log`). -/
inductive LogEntry
  | error
  | info
deriving DecidableEq

/-- The controller state: the refs, the UI flags, the console log, the
set of audio sources ever created (with their play status), and a
freshness counter for source identities.  `micHeld` is a ghost flag for
the OS microphone capture handle: it is set when `getUserMedia`
resolves; no code in the source ever calls `MediaStreamTrack.stop`, and
closing the `AudioContext` does not release the stream, so no operation
clears it. -/
structure AppState where
  handles : List Handle
  current : Option ℕ
  liveSession : Option Session
  audioCtx : Option AudioCtx
  micHeld : Bool
  isLiveActive : Bool
  isLuminaSpeaking : Bool
  isLuminaThinking : Bool
  nextId : ℕ
  log : List LogEntry
deriving DecidableEq

/-- The state of the app before any live session: all refs null, all
flags false. -/
def initApp : AppState :=
  { handles := [], current := none, liveSession := none, audioCtx := none,
    micHeld := false, isLiveActive := false, isLuminaSpeaking := false,
    isLuminaThinking := false, nextId := 0, log := [] }

/-- Coarse session state exposed to the UI.  The live overlay renders
only while `isLiveActive`; its status line (App.tsx line 645) is
`isLuminaSpeaking ? "Lumina is speaking..." : isLuminaThinking ?
"Thinking..." : "Listening..."`, so the code itself distinguishes four
states. -/
inductive SessionState
  | Idle
  | Thinking
  | Listening
  | Speaking
deriving DecidableEq

/-- Abstraction from the three boolean flags to the exposed state,
following the display logic of App.tsx line 645. -/
def sessionState (s : AppState) : SessionState :=
  if !s.isLiveActive then SessionState.Idle
  else if s.isLuminaSpeaking then SessionState.Speaking
  else if s.isLuminaThinking then SessionState.Thinking
  else SessionState.Listening

/-- The status text of the live overlay, verbatim from App.tsx line 645. -/
def liveStatusText (s : AppState) : String :=
  if s.isLuminaSpeaking then "Lumina is speaking..."
  else if s.isLuminaThinking then "Thinking..."
  else "Listening..."

/-! ### Inbound message handling (`onmessage`, App.tsx lines 279-313) -/

/-- Shape of one inbound transport message:
`message.serverContent?.modelTurn` present or not, the optional
`parts[0]?.inlineData?.data` base64 payload, and the
`message.serverContent?.interrupted` flag. -/
structure ServerMessage where
  modelTurn : Bool
  data : Option (List Char)
  interrupted : Bool

/-- Mark the source with identity `i` as no longer playing
(`source.stop()`, or the source reaching the end of its buffer). -/
def stopHandle (i : ℕ) (hs : List Handle) : List Handle :=
  hs.map fun h => if h.id = i then { h with stopped := true } else h

/-- The `modelTurn` half of `onmessage` (lines 280-305).  Returns the
new state and whether the handler aborted: a payload on which `atob`
throws escapes the (uncaught) async handler, so nothing after the
decode runs.  On a decodable payload the previous current source is
stopped, then the new source becomes current and is started. -/
def handleModelTurn (m : ServerMessage) (s : AppState) : AppState × Bool :=
  if m.modelTurn then
    let t := { s with isLuminaSpeaking := true, isLuminaThinking := false }
    match m.data with
    | none => (t, false)
    | some b64 =>
      if atobOk b64 then
        let t1 :=
          match t.current with
          | some i => { t with handles := stopHandle i t.handles }
          | none => t
        ({ t1 with
            handles := t1.handles ++ [{ id := t1.nextId, stopped := false }],
            current := some t1.nextId,
            nextId := t1.nextId + 1 }, false)
      else (t, true)
  else (s, false)

/-- The `interrupted` half of `onmessage` (lines 306-312): stop and
clear the current source if any, then clear the speaking flag. -/
def handleInterrupted (m : ServerMessage) (s : AppState) : AppState :=
  if m.interrupted then
    let s1 :=
      match s.current with
      | some i => { s with handles := stopHandle i s.handles, current := none }
      | none => s
    { s1 with isLuminaSpeaking := false }
  else s

/-- The whole `onmessage` handler.  When the modelTurn half aborts on a
decode failure, the interrupted check of the same message never runs. -/
def onmessage (m : ServerMessage) (s : AppState) : AppState :=
  match handleModelTurn m s with
  | (s1, true) => s1
  | (s1, false) => handleInterrupted m s1

/-- The `source.onended` completion callback (lines 297-302), together
with the physical fact that source `i` stopped sounding: the callback
clears the speaking flag and the current ref only when source `i` is
still the current one. -/
def onended (i : ℕ) (s : AppState) : AppState :=
  let s1 := { s with handles := stopHandle i s.handles }
  if s1.current = some i then
    { s1 with isLuminaSpeaking := false, current := none }
  else s1

/-- The `onopen` transport callback (lines 275-278): clears the
thinking flag and logs. -/
def onopen (s : AppState) : AppState :=
  { s with isLuminaThinking := false, log := s.log ++ [LogEntry.info] }

/-! ### Teardown (`stopLiveVoice`, App.tsx lines 217-233) -/

/-- The observable steps of `stopLiveVoice`, in the order the source
attempts them. -/
inductive TearStep
  | closeSession
  | closeCtx
  | stopSource
  | clearFlags
deriving DecidableEq

/-- Result of running `stopLiveVoice`: the steps performed, the
resulting state, and whether an exception escaped. -/
structure TearResult where
  trace : List TearStep
  state : AppState
  threw : Bool
deriving DecidableEq

/-- Sequencing of teardown stages: the routine has no try/catch, so a
stage that threw aborts the remaining stages. -/
def andThen (r : TearResult) (k : AppState → TearResult) : TearResult :=
  if r.threw then r
  else
    { trace := r.trace ++ (k r.state).trace,
      state := (k r.state).state,
      threw := (k r.state).threw }

/-- Lines 218-221: when the session ref is set, await its close and
null the ref.  A rejection leaves the ref set. -/
def stopSessionStep (fail : TearStep → Bool) (s : AppState) : TearResult :=
  match s.liveSession with
  | none => { trace := [], state := s, threw := false }
  | some _ =>
    if fail TearStep.closeSession then
      { trace := [TearStep.closeSession], state := s, threw := true }
    else
      { trace := [TearStep.closeSession],
        state := { s with liveSession := none }, threw := false }

/-- Lines 222-225: when the context ref is set and the context is not
already closed, await its close and null the ref.  A ref to an already
closed context is kept. -/
def stopCtxStep (fail : TearStep → Bool) (s : AppState) : TearResult :=
  match s.audioCtx with
  | none => { trace := [], state := s, threw := false }
  | some ctx =>
    if ctx.closed then { trace := [], state := s, threw := false }
    else if fail TearStep.closeCtx then
      { trace := [TearStep.closeCtx], state := s, threw := true }
    else
      { trace := [TearStep.closeCtx],
        state := { s with audioCtx := none }, threw := false }

/-- Lines 226-229: when the source ref is set, stop the source and
null the ref. -/
def stopSourceStep (fail : TearStep → Bool) (s : AppState) : TearResult :=
  match s.current with
  | none => { trace := [], state := s, threw := false }
  | some i =>
    if fail TearStep.stopSource then
      { trace := [TearStep.stopSource], state := s, threw := true }
    else
      { trace := [TearStep.stopSource],
        state := { s with handles := stopHandle i s.handles, current := none },
        threw := false }

/-- Lines 230-232: the three flag writes (these cannot throw). -/
def clearFlagsStep (s : AppState) : TearResult :=
  { trace := [TearStep.clearFlags],
    state := { s with isLiveActive := false, isLuminaSpeaking := false,
                      isLuminaThinking := false },
    threw := false }

/-- Translation of `stopLiveVoice`.  `fail` is the environment: whether
a given awaited step rejects.  Order in the source: transport close,
audio-context close, source stop, then the three flag writes. -/
def stopLiveVoice (fail : TearStep → Bool) (s : AppState) : TearResult :=
  andThen (stopSessionStep fail s) fun s1 =>
    andThen (stopCtxStep fail s1) fun s2 =>
      andThen (stopSourceStep fail s2) clearFlagsStep

/-! ### Session start (`startLiveVoice`, App.tsx lines 235-334) -/

/-- The external acquisition operations `startLiveVoice` awaits. -/
inductive StartOp
  | acquireMic
  | openTransport
deriving DecidableEq

/-- Flag writes at the top of `startLiveVoice` (lines 237-238), before
anything is acquired. -/
def startFlags (s : AppState) : AppState :=
  { s with isLiveActive := true, isLuminaThinking := true }

/-- Creation of the `AudioContext` and storing it in the ref
(lines 240-241), before the microphone is requested. -/
def createCtx (s : AppState) : AppState :=
  { s with audioCtx := some { closed := false } }

/-- Successful `getUserMedia`: the OS microphone handle is now held. -/
def acquireMic (s : AppState) : AppState := { s with micHeld := true }

/-- Successful `connectLive`: the session ref is set (line 316). -/
def openTransport (s : AppState) : AppState :=
  { s with liveSession := some { closed := false } }

/-- The catch block of `startLiveVoice` (lines 330-333):
`console.error(err)` then `stopLiveVoice()`. -/
def catchErr (s : AppState) : AppState :=
  (stopLiveVoice (fun _ => false) { s with log := s.log ++ [LogEntry.error] }).state

/-- Run of `startLiveVoice` under an environment that decides whether
microphone acquisition and transport open fail.  Returns the attempted
acquisition operations and the successive states after each internal
step, in program order. -/
def startRun (micFail openFail : Bool) (s : AppState) : List StartOp × List AppState :=
  let s1 := startFlags s
  let s2 := createCtx s1
  if micFail then ([StartOp.acquireMic], [s1, s2, catchErr s2])
  else
    let s3 := acquireMic s2
    if openFail then
      ([StartOp.acquireMic, StartOp.openTransport], [s1, s2, s3, catchErr s3])
    else
      ([StartOp.acquireMic, StartOp.openTransport], [s1, s2, s3, openTransport s3])

/-- Final state of `startLiveVoice`. -/
def startLiveVoice (micFail openFail : Bool) (s : AppState) : AppState :=
  ((startRun micFail openFail s).2).getLastD s

/-! ### Event traces over a running session -/

/-- Asynchronous events multiplexed onto the event loop while a live
session runs. -/
inductive LiveEvent
  | msg (m : ServerMessage)
  | ended (i : ℕ)
  | opened

/-- Dispatch of one event to its handler. -/
def handleEvent : LiveEvent → AppState → AppState
  | LiveEvent.msg m, s => onmessage m s
  | LiveEvent.ended i, s => onended i s
  | LiveEvent.opened, s => onopen s

/-- Run of a list of events, oldest first. -/
def runApp (s : AppState) : List LiveEvent → AppState
  | [] => s
  | e :: es => runApp (handleEvent e s) es

/-- State after a successful `startLiveVoice` from the idle app. -/
def startedApp : AppState := startLiveVoice false false initApp

/-- Playback handles in the started-but-not-stopped state. -/
def activeCount (s : AppState) : ℕ :=
  (s.handles.filter fun h => !h.stopped).length

/-- Whether the `onmessage` handler runs to completion on a message
(no uncaught `atob` exception in the modelTurn half). -/
def handlerCompletes (m : ServerMessage) : Bool :=
  !m.modelTurn ||
    (match m.data with
     | none => true
     | some b64 => atobOk b64)

/-- Structural invariant of the playback bookkeeping: every source
still playing is the one the `currentAudioSourceRef` points to, every
source identity is below the freshness counter (as is the current
identity), and identities are pairwise distinct. -/
def goodInv (s : AppState) : Prop :=
  (∀ h ∈ s.handles, h.stopped = false → s.current = some h.id) ∧
  (∀ h ∈ s.handles, h.id < s.nextId) ∧
  (s.handles.map Handle.id).Nodup ∧
  (∀ i : ℕ, s.current = some i → i < s.nextId)

/-- A model audio chunk whose payload decodes (base64 `AAAA`). -/
def chunkMsg : ServerMessage :=
  { modelTurn := true, data := some "AAAA".toList, interrupted := false }

/-- A model turn whose payload does not decode (`atob` throws on `!`). -/
def badMsg : ServerMessage :=
  { modelTurn := true, data := some "!".toList, interrupted := false }

/-- State after a successful start once the transport confirms open. -/
def afterOpen : AppState := onopen startedApp

/-- State after the first audio chunk of a turn begins playback. -/
def afterChunk : AppState := onmessage chunkMsg afterOpen

/-- State after the malformed chunk hits the open session. -/
def afterBad : AppState := onmessage badMsg afterOpen

/-- State after stopping a freshly started session twice in a row. -/
def afterStopTwice : AppState :=
  (stopLiveVoice (fun _ => false)
    (stopLiveVoice (fun _ => false) startedApp).state).state

/-! ### Properties of `stopHandle` -/

theorem stopHandle_map_id (i : ℕ) (hs : List Handle) :
    (stopHandle i hs).map Handle.id = hs.map Handle.id := by
  unfold stopHandle
  rw [List.map_map]
  apply List.map_congr_left
  intro h _
  by_cases hid : h.id = i <;> simp [hid]

theorem mem_stopHandle {h : Handle} {i : ℕ} {hs : List Handle}
    (hm : h ∈ stopHandle i hs) (hact : h.stopped = false) :
    h ∈ hs ∧ h.id ≠ i := by
  unfold stopHandle at hm
  obtain ⟨g, hg, heq⟩ := List.mem_map.mp hm
  by_cases hid : g.id = i
  · rw [if_pos hid] at heq
    rw [← heq] at hact
    simp at hact
  · rw [if_neg hid] at heq
    subst heq
    exact ⟨hg, hid⟩

theorem mem_stopHandle_id {h : Handle} {i : ℕ} {hs : List Handle}
    (hm : h ∈ stopHandle i hs) : ∃ g ∈ hs, h.id = g.id := by
  unfold stopHandle at hm
  obtain ⟨g, hg, heq⟩ := List.mem_map.mp hm
  refine ⟨g, hg, ?_⟩
  by_cases hid : g.id = i
  · rw [if_pos hid] at heq; rw [← heq]
  · rw [if_neg hid] at heq; rw [← heq]

theorem stopHandle_stops {h : Handle} {i : ℕ} {hs : List Handle}
    (hm : h ∈ stopHandle i hs) (hid : h.id = i) : h.stopped = true := by
  cases hstop : h.stopped
  · exact absurd hid (mem_stopHandle hm hstop).2
  · rfl

/-! ### The at-most-one-active consequence of the invariant -/

theorem filter_active_le_one (l : List Handle) (c : ℕ)
    (hnd : (l.map Handle.id).Nodup)
    (hall : ∀ h ∈ l, h.stopped = false → h.id = c) :
    (l.filter fun h => !h.stopped).length ≤ 1 := by
  induction l with
  | nil => simp
  | cons h t ih =>
    rw [List.map_cons, List.nodup_cons] at hnd
    cases hstop : h.stopped with
    | true =>
      rw [List.filter_cons_of_neg (by simp [hstop])]
      exact ih hnd.2 (fun x hx => hall x (List.mem_cons_of_mem _ hx))
    | false =>
      rw [List.filter_cons_of_pos (by simp [hstop])]
      have hid : h.id = c := hall h (List.mem_cons_self _ _) hstop
      have hnil : t.filter (fun h => !h.stopped) = [] := by
        rw [List.filter_eq_nil_iff]
        intro x hx hxa
        have hxid : x.id = c := hall x (List.mem_cons_of_mem _ hx) (by simpa using hxa)
        have : h.id ∈ t.map Handle.id := by
          rw [hid, ← hxid]
          exact List.mem_map_of_mem Handle.id hx
        exact hnd.1 this
      simp [hnil]

theorem activeCount_le_one_of_inv {s : AppState} (hinv : goodInv s) :
    activeCount s ≤ 1 := by
  obtain ⟨h1, _, h3, _⟩ := hinv
  unfold activeCount
  cases hc : s.current with
  | none =>
    have hnil : s.handles.filter (fun h => !h.stopped) = [] := by
      rw [List.filter_eq_nil_iff]
      intro x hx hxa
      have := h1 x hx (by simpa using hxa)
      rw [hc] at this
      cases this
    simp [hnil]
  | some c =>
    apply filter_active_le_one s.handles c h3
    intro h hm ha
    have := h1 h hm ha
    rw [hc] at this
    exact (Option.some.inj this).symm

theorem no_active_stopCurrent {s : AppState} (hinv : goodInv s) {i : ℕ}
    (hc : s.current = some i) :
    ∀ h ∈ stopHandle i s.handles, h.stopped = true := by
  intro h hm
  cases hstop : h.stopped with
  | true => rfl
  | false =>
    obtain ⟨hmem, hid⟩ := mem_stopHandle hm hstop
    have := hinv.1 h hmem hstop
    rw [hc] at this
    exact absurd (Option.some.inj this).symm hid

theorem activeCount_zero_of_all_stopped {s : AppState}
    (h : ∀ x ∈ s.handles, x.stopped = true) : activeCount s = 0 := by
  unfold activeCount
  have hnil : s.handles.filter (fun h => !h.stopped) = [] := by
    rw [List.filter_eq_nil_iff]
    intro x hx hxa
    rw [h x hx] at hxa
    simp at hxa
  simp [hnil]

/-! ### Preservation of the invariant by every handler -/

theorem goodInv_handleModelTurn (m : ServerMessage) {s : AppState}
    (hinv : goodInv s) : goodInv (handleModelTurn m s).1 := by
  obtain ⟨h1, h2, h3, h4⟩ := hinv
  unfold handleModelTurn
  by_cases hmt : m.modelTurn
  · simp only [hmt, if_true]
    cases hd : m.data with
    | none => exact ⟨h1, h2, h3, h4⟩
    | some b64 =>
      by_cases hok : atobOk b64
      · simp only [hok, if_true]
        cases hc : s.current with
        | none =>
          refine ⟨?_, ?_, ?_, ?_⟩
          · intro h hm ha
            rcases List.mem_append.mp hm with hold | hnew
            · have := h1 h hold ha
              rw [hc] at this
              cases this
            · simp at hnew
              rw [hnew]
          · intro h hm
            rcases List.mem_append.mp hm with hold | hnew
            · exact Nat.lt_succ_of_lt (h2 h hold)
            · simp at hnew
              rw [hnew]
              exact Nat.lt_succ_self _
          · rw [List.map_append, List.nodup_append]
            refine ⟨h3, by simp, ?_⟩
            intro a ha hb
            simp at hb
            obtain ⟨g, hg, hgid⟩ := List.mem_map.mp ha
            rw [← hgid] at hb
            exact absurd (hb ▸ h2 g hg) (lt_irrefl _)
          · intro i hi
            simp at hi
            rw [hi]
            exact Nat.lt_succ_self _
        | some c =>
          refine ⟨?_, ?_, ?_, ?_⟩
          · intro h hm ha
            rcases List.mem_append.mp hm with hold | hnew
            · have := no_active_stopCurrent ⟨h1, h2, h3, h4⟩ hc h hold
              rw [this] at ha
              cases ha
            · simp at hnew
              rw [hnew]
          · intro h hm
            rcases List.mem_append.mp hm with hold | hnew
            · obtain ⟨g, hg, hgid⟩ := mem_stopHandle_id hold
              rw [hgid]
              exact Nat.lt_succ_of_lt (h2 g hg)
            · simp at hnew
              rw [hnew]
              exact Nat.lt_succ_self _
          · rw [List.map_append, List.nodup_append, stopHandle_map_id]
            refine ⟨h3, by simp, ?_⟩
            intro a ha hb
            simp at hb
            obtain ⟨g, hg, hgid⟩ := List.mem_map.mp ha
            rw [← hgid] at hb
            exact absurd (hb ▸ h2 g hg) (lt_irrefl _)
          · intro i hi
            simp at hi
            rw [hi]
            exact Nat.lt_succ_self _
      · simp only [hok, if_false]
        exact ⟨h1, h2, h3, h4⟩
  · simp only [hmt, if_false]
    exact ⟨h1, h2, h3, h4⟩

theorem goodInv_handleInterrupted (m : ServerMessage) {s : AppState}
    (hinv : goodInv s) : goodInv (handleInterrupted m s) := by
  obtain ⟨h1, h2, h3, h4⟩ := hinv
  unfold handleInterrupted
  by_cases hint : m.interrupted
  · simp only [hint, if_true]
    cases hc : s.current with
    | none => exact ⟨fun h hm ha => h1 h hm ha, h2, h3, h4⟩
    | some c =>
      refine ⟨?_, ?_, ?_, ?_⟩
      · intro h hm ha
        have := no_active_stopCurrent ⟨h1, h2, h3, h4⟩ hc h hm
        rw [this] at ha
        cases ha
      · intro h hm
        obtain ⟨g, hg, hgid⟩ := mem_stopHandle_id hm
        rw [hgid]
        exact h2 g hg
      · rw [stopHandle_map_id]
        exact h3
      · intro i hi
        cases hi
  · simp only [hint, if_false]
    exact ⟨h1, h2, h3, h4⟩

theorem goodInv_onmessage (m : ServerMessage) {s : AppState}
    (hinv : goodInv s) : goodInv (onmessage m s) := by
  unfold onmessage
  have hmt := goodInv_handleModelTurn m hinv
  cases heq : handleModelTurn m s with
  | mk s1 b =>
    rw [heq] at hmt
    cases b
    · exact goodInv_handleInterrupted m hmt
    · exact hmt

theorem goodInv_onended (i : ℕ) {s : AppState} (hinv : goodInv s) :
    goodInv (onended i s) := by
  obtain ⟨h1, h2, h3, h4⟩ := hinv
  unfold onended
  by_cases hc : s.current = some i
  · rw [if_pos (show ({ s with handles := stopHandle i s.handles } : AppState).current = some i from hc)]
    refine ⟨?_, ?_, ?_, ?_⟩
    · intro h hm ha
      have := no_active_stopCurrent ⟨h1, h2, h3, h4⟩ hc h hm
      rw [this] at ha
      cases ha
    · intro h hm
      obtain ⟨g, hg, hgid⟩ := mem_stopHandle_id hm
      rw [hgid]
      exact h2 g hg
    · rw [stopHandle_map_id]
      exact h3
    · intro j hj
      cases hj
  · rw [if_neg (show ¬({ s with handles := stopHandle i s.handles } : AppState).current = some i from hc)]
    refine ⟨?_, ?_, ?_, ?_⟩
    · intro h hm ha
      obtain ⟨hmem, hne⟩ := mem_stopHandle hm ha
      exact h1 h hmem ha
    · intro h hm
      obtain ⟨g, hg, hgid⟩ := mem_stopHandle_id hm
      rw [hgid]
      exact h2 g hg
    · rw [stopHandle_map_id]
      exact h3
    · exact h4

theorem goodInv_onopen {s : AppState} (hinv : goodInv s) :
    goodInv (onopen s) := hinv

theorem goodInv_handleEvent (e : LiveEvent) {s : AppState}
    (hinv : goodInv s) : goodInv (handleEvent e s) := by
  cases e with
  | msg m => exact goodInv_onmessage m hinv
  | ended i => exact goodInv_onended i hinv
  | opened => exact goodInv_onopen hinv

theorem goodInv_runApp (es : List LiveEvent) {s : AppState}
    (hinv : goodInv s) : goodInv (runApp s es) := by
  induction es generalizing s with
  | nil => exact hinv
  | cons e es ih => exact ih (goodInv_handleEvent e hinv)

theorem goodInv_startedApp : goodInv startedApp := by
  have hh : startedApp.handles = [] := rfl
  have hc : startedApp.current = none := rfl
  refine ⟨?_, ?_, ?_, ?_⟩
  · intro h hm
    rw [hh] at hm
    cases hm
  · intro h hm
    rw [hh] at hm
    cases hm
  · rw [hh]
    exact List.nodup_nil
  · intro i hi
    rw [hc] at hi
    cases hi

/-! ### Shape lemmas for the message handler -/

theorem handleModelTurn_snd {m : ServerMessage} {s : AppState}
    (hcomp : handlerCompletes m = true) : (handleModelTurn m s).2 = false := by
  unfold handlerCompletes at hcomp
  unfold handleModelTurn
  cases hmt : m.modelTurn with
  | false => simp [hmt]
  | true =>
    rw [hmt] at hcomp
    simp only [Bool.not_true, Bool.false_or] at hcomp
    cases hd : m.data with
    | none => simp [hmt, hd]
    | some b64 =>
      rw [hd] at hcomp
      have hok : atobOk b64 = true := hcomp
      cases hcur : s.current <;> simp [hmt, hd, hcur, hok]

theorem onmessage_of_completes {m : ServerMessage} {s : AppState}
    (h : (handleModelTurn m s).2 = false) :
    onmessage m s = handleInterrupted m (handleModelTurn m s).1 := by
  unfold onmessage
  cases heq : handleModelTurn m s with
  | mk s1 b =>
    rw [heq] at h
    cases b
    · rfl
    · cases h

theorem handleInterrupted_post {s : AppState} (hinv : goodInv s)
    {m : ServerMessage} (hint : m.interrupted = true) :
    activeCount (handleInterrupted m s) = 0 ∧
    (handleInterrupted m s).current = none ∧
    (handleInterrupted m s).isLuminaSpeaking = false := by
  unfold handleInterrupted
  rw [if_pos hint]
  cases hc : s.current with
  | none =>
    refine ⟨?_, hc, rfl⟩
    apply activeCount_zero_of_all_stopped
    intro x hx
    cases hstop : x.stopped with
    | true => rfl
    | false =>
      have := hinv.1 x hx hstop
      rw [hc] at this
      cases this
  | some c =>
    refine ⟨?_, rfl, rfl⟩
    apply activeCount_zero_of_all_stopped
    intro x hx
    exact no_active_stopCurrent hinv hc x hx

theorem onmessage_chunk_current {s : AppState} {b64 : List Char}
    (hok : atobOk b64 = true) {i : ℕ} (hc : s.current = some i) :
    onmessage { modelTurn := true, data := some b64, interrupted := false } s =
      { s with
          handles := stopHandle i s.handles ++ [{ id := s.nextId, stopped := false }],
          current := some s.nextId, nextId := s.nextId + 1,
          isLuminaSpeaking := true, isLuminaThinking := false } := by
  unfold onmessage handleModelTurn handleInterrupted
  simp only [hok, hc, if_true, if_false]
  rw [if_neg Bool.false_ne_true]

/-! ### Claim theorems: playback exclusivity and interruption -/

/-- C1: at every instant at most one playback handle is in the
started-but-not-stopped state, over every interleaving of inbound
messages (chunks and interruptions), completion callbacks and the open
callback; and when a chunk arrives while a handle is current, that
previous handle is stopped in the resulting state while the fresh
handle becomes current. -/
theorem c1_at_most_one_active :
    (∀ es : List LiveEvent, activeCount (runApp startedApp es) ≤ 1) ∧
    (∀ (es : List LiveEvent) (i : ℕ) (b64 : List Char),
      atobOk b64 = true →
      (runApp startedApp es).current = some i →
      (∀ h ∈ (onmessage { modelTurn := true, data := some b64, interrupted := false }
          (runApp startedApp es)).handles, h.id = i → h.stopped = true) ∧
      (onmessage { modelTurn := true, data := some b64, interrupted := false }
          (runApp startedApp es)).current = some (runApp startedApp es).nextId ∧
      activeCount (onmessage { modelTurn := true, data := some b64, interrupted := false }
          (runApp startedApp es)) ≤ 1) := by
  constructor
  · intro es
    exact activeCount_le_one_of_inv (goodInv_runApp es goodInv_startedApp)
  · intro es i b64 hok hc
    have hinv : goodInv (runApp startedApp es) := goodInv_runApp es goodInv_startedApp
    rw [onmessage_chunk_current hok hc]
    refine ⟨?_, rfl, ?_⟩
    · intro h hm hid
      rcases List.mem_append.mp hm with hold | hnew
      · exact stopHandle_stops hold hid
      · simp at hnew
        subst hnew
        have hlt := hinv.2.2.2 i hc
        have hni : (runApp startedApp es).nextId = i := hid
        rw [hni] at hlt
        exact absurd hlt (lt_irrefl i)
    · rw [← onmessage_chunk_current hok hc]
      exact activeCount_le_one_of_inv (goodInv_onmessage _ hinv)

/-- Witness for C1 at a concrete trace: one decodable chunk has arrived
and is current, then a second decodable chunk arrives. -/
theorem c1_witness :
    atobOk ("AAAA".toList) = true ∧
    (runApp startedApp [LiveEvent.msg chunkMsg]).current = some 0 ∧
    (∀ h ∈ (onmessage { modelTurn := true, data := some ("AAAA".toList), interrupted := false }
        (runApp startedApp [LiveEvent.msg chunkMsg])).handles, h.id = 0 → h.stopped = true) :=
  ⟨by decide, by decide,
    (c1_at_most_one_active.2 [LiveEvent.msg chunkMsg] 0 ("AAAA".toList)
      (by decide) (by decide)).1⟩

/-- C2: processing a message carrying the `interrupted` flag (whenever
the handler runs to completion, in particular on every pure
`Interrupted` event) leaves no started-but-not-stopped handle, a
cleared current-handle ref and a cleared speaking flag, in the same
handler invocation, whatever had played before. -/
theorem c2_interrupted_silences :
    ∀ (es : List LiveEvent) (m : ServerMessage),
      m.interrupted = true →
      handlerCompletes m = true →
      activeCount (onmessage m (runApp startedApp es)) = 0 ∧
      (onmessage m (runApp startedApp es)).current = none ∧
      (onmessage m (runApp startedApp es)).isLuminaSpeaking = false := by
  intro es m hint hcomp
  have hinv : goodInv (runApp startedApp es) := goodInv_runApp es goodInv_startedApp
  rw [onmessage_of_completes (handleModelTurn_snd hcomp)]
  exact handleInterrupted_post (goodInv_handleModelTurn m hinv) hint

/-- Witness for C2: an `Interrupted` event arriving while the first
chunk's handle is still playing. -/
theorem c2_witness :
    activeCount (onmessage { modelTurn := false, data := none, interrupted := true }
      (runApp startedApp [LiveEvent.msg chunkMsg])) = 0 ∧
    (onmessage { modelTurn := false, data := none, interrupted := true }
      (runApp startedApp [LiveEvent.msg chunkMsg])).current = none ∧
    (onmessage { modelTurn := false, data := none, interrupted := true }
      (runApp startedApp [LiveEvent.msg chunkMsg])).isLuminaSpeaking = false :=
  c2_interrupted_silences [LiveEvent.msg chunkMsg]
    { modelTurn := false, data := none, interrupted := true } rfl rfl

/-- C9: the completion callback of handle `i` clears the current ref
and the speaking flag exactly when `i` is still the current handle; a
superseded handle's completion never clears a newer handle's ref. -/
theorem c9_completion_guard :
    ∀ (s : AppState) (i c : ℕ), s.current = some c →
      (onended i s).current = (if c = i then none else some c) ∧
      (onended i s).isLuminaSpeaking =
        (if c = i then false else s.isLuminaSpeaking) ∧
      (∀ h ∈ (onended i s).handles, h.id = i → h.stopped = true) := by
  intro s i c hc
  unfold onended
  by_cases hci : c = i
  · rw [if_pos (show ({ s with handles := stopHandle i s.handles } : AppState).current = some i
        from by rw [hc, hci])]
    refine ⟨by rw [if_pos hci], by rw [if_pos hci], ?_⟩
    intro h hm hid
    exact stopHandle_stops hm hid
  · rw [if_neg (show ¬({ s with handles := stopHandle i s.handles } : AppState).current = some i
        from by rw [hc]; intro hcon; exact hci (Option.some.inj hcon))]
    refine ⟨by rw [if_neg hci]; exact hc, by rw [if_neg hci], ?_⟩
    intro h hm hid
    exact stopHandle_stops hm hid

/-- Witness for C9: natural completion of the only chunk's handle,
which is still current, so it self-clears. -/
theorem c9_witness :
    afterChunk.current = some 0 ∧
    ((onended 0 afterChunk).current = (if 0 = 0 then none else some 0) ∧
      (onended 0 afterChunk).isLuminaSpeaking =
        (if 0 = 0 then false else afterChunk.isLuminaSpeaking) ∧
      (∀ h ∈ (onended 0 afterChunk).handles, h.id = 0 → h.stopped = true)) :=
  ⟨by decide, c9_completion_guard afterChunk 0 0 (by decide)⟩

/-- C10: a modelTurn message whose first part has no inline audio sets
the speaking flag, clears the thinking flag, and changes nothing else:
no handle is created, yet the status line reports speaking. -/
theorem c10_model_turn_without_audio :
    ∀ s : AppState,
      onmessage { modelTurn := true, data := none, interrupted := false } s =
        { s with isLuminaSpeaking := true, isLuminaThinking := false } ∧
      liveStatusText (onmessage { modelTurn := true, data := none, interrupted := false } s) =
        "Lumina is speaking..." := by
  intro s
  exact ⟨rfl, rfl⟩

/-! ### Frame encoder lemmas -/

theorem b64encode_length (l : List ℕ) :
    (b64encode l).length = 4 * ((l.length + 2) / 3) := by
  induction l using b64encode.induct with
  | case1 => rfl
  | case2 a => simp [b64encode]
  | case3 a b => simp [b64encode]
  | case4 a b c rest ih =>
    simp only [b64encode, List.length_cons, ih]
    omega

theorem frameBytes_length (xs : List ℚ) : (frameBytes xs).length = 2 * xs.length := by
  induction xs with
  | nil => rfl
  | cons x t ih =>
    unfold frameBytes at ih ⊢
    simp only [List.map_cons, List.flatten_cons, List.length_append, ih,
      sampleBytes, List.length_cons, List.length_nil, List.length_singleton]
    omega

theorem pcmSample_bounds (x : ℚ) : -32767 ≤ pcmSample x ∧ pcmSample x ≤ 32767 := by
  unfold pcmSample
  have hcl : -1 ≤ clamp x := le_max_left _ _
  have hcu : clamp x ≤ 1 := max_le (by norm_num) (min_le_left _ _)
  have h1 : -(32767 : ℚ) ≤ clamp x * 32767 := by nlinarith
  have h2 : clamp x * 32767 ≤ (32767 : ℚ) := by nlinarith
  unfold jsTrunc
  split
  case isTrue h0 =>
    constructor
    · have hnn : (0 : ℤ) ≤ ⌊clamp x * 32767⌋ := Int.le_floor.mpr (by exact_mod_cast h0)
      omega
    · have hf : ((⌊clamp x * 32767⌋ : ℤ) : ℚ) ≤ 32767 := (Int.floor_le _).trans h2
      exact_mod_cast hf
  case isFalse h0 =>
    push_neg at h0
    constructor
    · have hf : ((⌊-(clamp x * 32767)⌋ : ℤ) : ℚ) ≤ 32767 :=
        (Int.floor_le _).trans (by linarith)
      have hb : ⌊-(clamp x * 32767)⌋ ≤ (32767 : ℤ) := by exact_mod_cast hf
      omega
    · have hnn : (0 : ℤ) ≤ ⌊-(clamp x * 32767)⌋ :=
        Int.le_floor.mpr (by push_cast; linarith)
      omega

theorem pcmSample_sat_high {x : ℚ} (hx : 1 ≤ x) : pcmSample x = 32767 := by
  unfold pcmSample clamp
  rw [min_eq_left hx, max_eq_right (by norm_num : (-1 : ℚ) ≤ 1)]
  norm_num [jsTrunc]

theorem pcmSample_sat_low {x : ℚ} (hx : x ≤ -1) : pcmSample x = -32767 := by
  unfold pcmSample clamp
  rw [min_eq_right (le_trans hx (by norm_num)), max_eq_left hx]
  norm_num [jsTrunc]

theorem pcmSample_passthrough {x : ℚ} (h1 : -1 ≤ x) (h2 : x ≤ 1) :
    pcmSample x = jsTrunc (x * 32767) := by
  unfold pcmSample clamp
  rw [min_eq_right h2, max_eq_right h1]

/-- C3: the tick handler is a total function that, for a full
4096-sample tick, produces exactly 8192 PCM bytes and one whole
10924-character base64 frame with the fixed MIME tag; each sample is
clamped to [-1,1] and scaled into the signed 16-bit range (saturating
outside, truncating inside), so no input is ever rejected. -/
theorem c3_frame_encoder :
    (∀ xs : List ℚ, xs.length = 4096 →
      (frameBytes xs).length = 8192 ∧
      (onaudioprocess xs).data.length = 10924 ∧
      (onaudioprocess xs).mimeType = "audio/pcm;rate=24000") ∧
    (∀ x : ℚ,
      -32767 ≤ pcmSample x ∧ pcmSample x ≤ 32767 ∧
      (1 ≤ x → pcmSample x = 32767) ∧
      (x ≤ -1 → pcmSample x = -32767) ∧
      (-1 ≤ x → x ≤ 1 → pcmSample x = jsTrunc (x * 32767))) := by
  constructor
  · intro xs hlen
    have hf : (frameBytes xs).length = 8192 := by rw [frameBytes_length, hlen]
    refine ⟨hf, ?_, rfl⟩
    show (encodeTick xs).length = 10924
    unfold encodeTick
    rw [b64encode_length, hf]
  · intro x
    exact ⟨(pcmSample_bounds x).1, (pcmSample_bounds x).2,
      fun h => pcmSample_sat_high h, fun h => pcmSample_sat_low h,
      fun h1 h2 => pcmSample_passthrough h1 h2⟩

/-- Witness for C3: a full tick of silence, and the out-of-range sample
2 (clamped, not rejected). -/
theorem c3_witness :
    (List.replicate 4096 (0 : ℚ)).length = 4096 ∧
    ((frameBytes (List.replicate 4096 (0 : ℚ))).length = 8192 ∧
      (onaudioprocess (List.replicate 4096 (0 : ℚ))).data.length = 10924 ∧
      (onaudioprocess (List.replicate 4096 (0 : ℚ))).mimeType = "audio/pcm;rate=24000") ∧
    (-32767 ≤ pcmSample 2 ∧ pcmSample 2 ≤ 32767 ∧
      (1 ≤ (2 : ℚ) → pcmSample 2 = 32767) ∧
      ((2 : ℚ) ≤ -1 → pcmSample 2 = -32767) ∧
      (-1 ≤ (2 : ℚ) → (2 : ℚ) ≤ 1 → pcmSample 2 = jsTrunc (2 * 32767))) :=
  ⟨by rw [List.length_replicate], c3_frame_encoder.1 _ (by rw [List.length_replicate]),
    c3_frame_encoder.2 2⟩

/-! ### Teardown lemmas -/

theorem stopLiveVoice_trace_sublist (fail : TearStep → Bool) (s : AppState) :
    (stopLiveVoice fail s).trace.Sublist
      [TearStep.closeSession, TearStep.closeCtx, TearStep.stopSource,
        TearStep.clearFlags] := by
  rcases hls : s.liveSession with _ | sess <;>
  rcases hctx : s.audioCtx with _ | ⟨_ | _⟩ <;>
  rcases hcur : s.current with _ | i <;>
  cases hf1 : fail TearStep.closeSession <;>
  cases hf2 : fail TearStep.closeCtx <;>
  cases hf3 : fail TearStep.stopSource <;>
  simp [stopLiveVoice, stopSessionStep, stopCtxStep, stopSourceStep,
    clearFlagsStep, andThen, hls, hctx, hcur, hf1, hf2, hf3]

theorem stopLiveVoice_micHeld (fail : TearStep → Bool) (s : AppState) :
    (stopLiveVoice fail s).state.micHeld = s.micHeld := by
  rcases hls : s.liveSession with _ | sess <;>
  rcases hctx : s.audioCtx with _ | ⟨_ | _⟩ <;>
  rcases hcur : s.current with _ | i <;>
  cases hf1 : fail TearStep.closeSession <;>
  cases hf2 : fail TearStep.closeCtx <;>
  cases hf3 : fail TearStep.stopSource <;>
  simp [stopLiveVoice, stopSessionStep, stopCtxStep, stopSourceStep,
    clearFlagsStep, andThen, hls, hctx, hcur, hf1, hf2, hf3]

theorem stopLiveVoice_noFail (s : AppState) :
    (stopLiveVoice (fun _ => false) s).threw = false ∧
    (stopLiveVoice (fun _ => false) s).state.liveSession = none ∧
    (stopLiveVoice (fun _ => false) s).state.current = none ∧
    (stopLiveVoice (fun _ => false) s).state.isLiveActive = false ∧
    (stopLiveVoice (fun _ => false) s).state.isLuminaSpeaking = false ∧
    (stopLiveVoice (fun _ => false) s).state.isLuminaThinking = false ∧
    (∀ c, (stopLiveVoice (fun _ => false) s).state.audioCtx = some c →
      c.closed = true) := by
  rcases hls : s.liveSession with _ | sess <;>
  rcases hctx : s.audioCtx with _ | ⟨_ | _⟩ <;>
  rcases hcur : s.current with _ | i <;>
  simp [stopLiveVoice, stopSessionStep, stopCtxStep, stopSourceStep,
    clearFlagsStep, andThen, hls, hctx, hcur]

theorem sessionState_of_not_active {s : AppState} (h : s.isLiveActive = false) :
    sessionState s = SessionState.Idle := by
  unfold sessionState
  rw [h]
  rfl

theorem stop_on_cleared {s1 : AppState} (h1 : s1.liveSession = none)
    (h2 : s1.current = none)
    (h3 : ∀ c, s1.audioCtx = some c → c.closed = true)
    (h4 : s1.isLiveActive = false) (h5 : s1.isLuminaSpeaking = false)
    (h6 : s1.isLuminaThinking = false) (fail : TearStep → Bool) :
    stopLiveVoice fail s1 =
      { trace := [TearStep.clearFlags], state := s1, threw := false } := by
  obtain ⟨hs, cur, ls, ac, mh, la, sp, th, ni, lg⟩ := s1
  simp only at h1 h2 h3 h4 h5 h6
  subst h1 h2 h4 h5 h6
  rcases ac with _ | cc
  · rfl
  · have hcc : cc.closed = true := h3 cc rfl
    obtain ⟨b⟩ := cc
    have hb : b = true := hcc
    subst hb
    rfl

/-! ### Claim theorems: lifecycle -/

/-- C4 counterexample: from the reachable state with an open session,
an open context and a playing handle, teardown's first attempted step
is the transport close, not the playback stop; and when the transport
close throws, the playback stop is never attempted and the handle
keeps playing; the microphone handle is not released either. -/
theorem c4_counterexample :
    (stopLiveVoice (fun _ => false) afterChunk).trace =
      [TearStep.closeSession, TearStep.closeCtx, TearStep.stopSource,
        TearStep.clearFlags] ∧
    (stopLiveVoice (fun _ => false) afterChunk).trace.head? ≠
      some TearStep.stopSource ∧
    (stopLiveVoice (fun t => decide (t = TearStep.closeSession)) afterChunk).trace =
      [TearStep.closeSession] ∧
    (stopLiveVoice (fun t => decide (t = TearStep.closeSession)) afterChunk).threw =
      true ∧
    activeCount
      (stopLiveVoice (fun t => decide (t = TearStep.closeSession)) afterChunk).state =
      1 ∧
    (stopLiveVoice (fun _ => false) afterChunk).state.micHeld = true := by
  decide

/-- C4 as amended: teardown attempts, in this order, transport close,
audio-device close, playback stop, flag clear (its step trace is always
a sublist of that sequence, so the relative order never changes); the
microphone handle is never released; and when no step throws, the
routine completes with the transport, current-source refs cleared and
the controller inactive. -/
theorem c4_teardown_amended :
    ∀ (fail : TearStep → Bool) (s : AppState),
      (stopLiveVoice fail s).trace.Sublist
        [TearStep.closeSession, TearStep.closeCtx, TearStep.stopSource,
          TearStep.clearFlags] ∧
      (stopLiveVoice fail s).state.micHeld = s.micHeld ∧
      (stopLiveVoice (fun _ => false) s).threw = false ∧
      (stopLiveVoice (fun _ => false) s).state.liveSession = none ∧
      (stopLiveVoice (fun _ => false) s).state.current = none ∧
      (stopLiveVoice (fun _ => false) s).state.isLiveActive = false :=
  fun fail s =>
    ⟨stopLiveVoice_trace_sublist fail s, stopLiveVoice_micHeld fail s,
      (stopLiveVoice_noFail s).1, (stopLiveVoice_noFail s).2.1,
      (stopLiveVoice_noFail s).2.2.1, (stopLiveVoice_noFail s).2.2.2.1⟩

/-- C5 counterexample: after start, stop, stop, the controller is Idle
and nothing threw, but the OS microphone capture handle acquired by
`getUserMedia` is still held: no code path releases it, so a dangling
device handle remains. -/
theorem c5_counterexample :
    afterStopTwice.micHeld = true ∧
    sessionState afterStopTwice = SessionState.Idle ∧
    (stopLiveVoice (fun _ => false)
      (stopLiveVoice (fun _ => false) startedApp).state).threw = false := by
  decide

/-- C5 as amended: stopping when never started touches nothing but the
flags and cannot throw, ending Idle; a second stop after a successful
stop is an exact no-op on the state and cannot throw, whatever the
environment does; the transport close is idempotent; but the
microphone handle is never released by stop, so a handle acquired by a
started session stays held. -/
theorem c5_stop_idempotent_amended :
    ∀ (s : AppState) (fail fail2 : TearStep → Bool),
      (stopLiveVoice fail initApp).threw = false ∧
      (stopLiveVoice fail initApp).trace = [TearStep.clearFlags] ∧
      sessionState (stopLiveVoice fail initApp).state = SessionState.Idle ∧
      (stopLiveVoice fail initApp).state.micHeld = false ∧
      (stopLiveVoice fail2 (stopLiveVoice (fun _ => false) s).state).threw = false ∧
      (stopLiveVoice fail2 (stopLiveVoice (fun _ => false) s).state).state =
        (stopLiveVoice (fun _ => false) s).state ∧
      sessionState (stopLiveVoice (fun _ => false) s).state = SessionState.Idle ∧
      (∀ t : Session, Session.close (Session.close t) = Session.close t) ∧
      (stopLiveVoice fail s).state.micHeld = s.micHeld := by
  intro s fail fail2
  obtain ⟨ht, hls, hcur, hla, hsp, hth, hctx⟩ := stopLiveVoice_noFail s
  have hstop2 := stop_on_cleared hls hcur hctx hla hsp hth fail2
  refine ⟨rfl, rfl, rfl, rfl, ?_, ?_, sessionState_of_not_active hla,
    fun t => rfl, stopLiveVoice_micHeld fail s⟩
  · rw [hstop2]
  · rw [hstop2]

/-- C6 counterexample: the start routine raises the live/thinking flags
as its very first step, before the microphone is requested, so on a
`DeviceUnavailable` start the controller state does transiently leave
Idle (it shows Thinking). -/
theorem c6_counterexample :
    sessionState (startFlags initApp) = SessionState.Thinking ∧
    ((startRun true false initApp).2).head? = some (startFlags initApp) ∧
    SessionState.Thinking ≠ SessionState.Idle := by
  decide

/-- C6 as amended: when microphone acquisition fails, no transport open
is attempted (the only attempted acquisition is the microphone), the
routine ends with the controller back in Idle, no session ref set and
the microphone not held (beyond whatever it was before). -/
theorem c6_device_unavailable_amended :
    ∀ (s : AppState) (b : Bool),
      (startRun true b s).1 = [StartOp.acquireMic] ∧
      StartOp.openTransport ∉ (startRun true b s).1 ∧
      sessionState (startLiveVoice true b s) = SessionState.Idle ∧
      (startLiveVoice true b s).micHeld = s.micHeld ∧
      (startLiveVoice true b s).liveSession = none := by
  intro s b
  have hrun : startLiveVoice true b s = catchErr (createCtx (startFlags s)) := rfl
  obtain ⟨ht, hls, hcur, hla, hsp, hth, hctx⟩ :=
    stopLiveVoice_noFail
      { createCtx (startFlags s) with
          log := (createCtx (startFlags s)).log ++ [LogEntry.error] }
  refine ⟨rfl, by simp [show (startRun true b s).1 = [StartOp.acquireMic] from rfl],
    ?_, ?_, ?_⟩
  · rw [hrun]
    exact sessionState_of_not_active hla
  · rw [hrun]
    show (stopLiveVoice (fun _ => false) _).state.micHeld = s.micHeld
    rw [stopLiveVoice_micHeld]
    rfl
  · rw [hrun]
    exact hls

/-- C7 counterexample: once `onopen` fires the thinking flag is
cleared, so between open and the first chunk the controller is in the
Listening state (status line "Listening..."), not Thinking. -/
theorem c7_counterexample :
    sessionState afterOpen = SessionState.Listening ∧
    liveStatusText afterOpen = "Listening..." ∧
    afterOpen.isLuminaThinking = false ∧
    SessionState.Listening ≠ SessionState.Thinking := by
  decide

/-- C7 as amended: after the transport confirms open and before any
chunk, the controller is in the Listening state with no playback
handle; calling stop then moves it directly to Idle without throwing
and without ever passing through Speaking. -/
theorem c7_open_then_stop_amended :
    sessionState afterOpen = SessionState.Listening ∧
    activeCount afterOpen = 0 ∧
    afterOpen.isLuminaSpeaking = false ∧
    (stopLiveVoice (fun _ => false) afterOpen).threw = false ∧
    (stopLiveVoice (fun _ => false) afterOpen).state.isLuminaSpeaking = false ∧
    sessionState (stopLiveVoice (fun _ => false) afterOpen).state =
      SessionState.Idle := by
  decide

/-- C8 counterexample: the malformed chunk leaves the console log
unchanged (in particular no error entry), so the decode failure is not
logged; the chunk is dropped and the session survives, but the
speaking flag set before the decode stays set. -/
theorem c8_counterexample :
    afterBad.log = afterOpen.log ∧
    LogEntry.error ∉ afterBad.log ∧
    afterBad.handles = [] ∧
    afterBad.current = none ∧
    afterBad.liveSession = afterOpen.liveSession ∧
    afterBad.liveSession.isSome = true ∧
    afterBad.isLuminaSpeaking = true := by
  decide

/-- C8 as amended: a modelTurn message whose payload fails to decode
aborts the handler uncaught: the sole effect is the speaking flag set
and the thinking flag cleared — no handle is created, nothing is
logged, the session and every other field are untouched, and the
interrupted part of the same message is skipped. -/
theorem c8_decode_failure_amended :
    ∀ (s : AppState) (b64 : List Char) (i : Bool),
      atobOk b64 = false →
      onmessage { modelTurn := true, data := some b64, interrupted := i } s =
        { s with isLuminaSpeaking := true, isLuminaThinking := false } := by
  intro s b64 i hbad
  unfold onmessage handleModelTurn
  simp only [hbad, if_true, if_false, Bool.false_eq_true]

/-- Witness for C8: the payload `!` on the open session. -/
theorem c8_witness :
    atobOk ("!".toList) = false ∧
    afterBad = { afterOpen with isLuminaSpeaking := true, isLuminaThinking := false } :=
  ⟨by decide, c8_decode_failure_amended afterOpen ("!".toList) false (by decide)⟩

end LuminaLive
